/-
Verification of the dev_agent pipeline (state store, issue sequencer,
per-issue step sequencer, test-result annotation, conflict resolution,
phase-merge coordination) against its natural-language specification.

Shallow embedding: each definition mirrors one Python function of the
repository (module and line references are given in the doc comments).
Machine integers are modelled as Int/Nat, fallible code as Option/Except.
-/
import Mathlib

set_option maxHeartbeats 1000000

namespace DevAgent

/-! ## state.py — sub-step enumeration and `IssueState.past_step` -/

/-- The list `SUB_STEPS` from `state.py` lines 19-29: the ordered list of per-issue
lifecycle sub-steps as the code declares it.  (Note: it has nine entries;
there is no `"tests_passed"` entry.) -/
def SUB_STEPS : List String :=
  [ "not_started",
    "issue_created",
    "branch_created",
    "code_generated",
    "committed",
    "pr_created",
    "pr_reviewed",
    "pr_merged",
    "issue_closed" ]

/-- The sub-step enumeration as the specification states it (§3): ten
entries, with `tests_passed` between `pr_reviewed` and `pr_merged`.
Kept separate from `SUB_STEPS` so the two can be compared. -/
def specSubSteps : List String :=
  [ "not_started",
    "issue_created",
    "branch_created",
    "code_generated",
    "committed",
    "pr_created",
    "pr_reviewed",
    "tests_passed",
    "pr_merged",
    "issue_closed" ]

/-- Python's `list.index(x)`: position of the first occurrence, or failure
(`ValueError`) when `x` is absent — modelled as `none`. -/
def listIndex (xs : List String) (x : String) : Option Nat :=
  xs.indexOf? x

/-- The dataclass `IssueState` from `state.py` lines 32-42 (typed fields, as the program
itself constructs them). -/
structure IssueState where
  index : Int
  title : String
  phase : Int
  priority : String
  github_issue_number : Option Int := none
  branch_name : Option String := none
  pr_number : Option Int := none
  status : String := "pending"
  sub_step : String := "not_started"
  deriving Repr, DecidableEq

/-- The method `IssueState.past_step` from `state.py` lines 44-48:
`current_idx = SUB_STEPS.index(self.sub_step)`;
`target_idx = SUB_STEPS.index(step_name)`; return `current_idx >= target_idx`.
Either `index` call raises `ValueError` when its argument is not in
`SUB_STEPS`; that failure is the `none` result. -/
def pastStep (self : IssueState) (step_name : String) : Option Bool := do
  let current_idx ← listIndex SUB_STEPS self.sub_step
  let target_idx ← listIndex SUB_STEPS step_name
  return decide (current_idx ≥ target_idx)

/-- A concrete issue mid-pipeline: its cursor sits at `pr_reviewed`,
exactly the state saved just before the test-execution step runs. -/
def sampleIssue : IssueState :=
  { index := 0, title := "Add login form", phase := 1, priority := "high",
    github_issue_number := some 7, branch_name := some "feature/issue-7-add-login-form",
    pr_number := some 12, status := "in_progress", sub_step := "pr_reviewed" }

/-- An issue whose cursor has been set to `"tests_passed"`, as
`issue_processor.py` line 460 does after the test step completes. -/
def testsPassedIssue : IssueState :=
  { sampleIssue with sub_step := "tests_passed" }

/-- C1: the claim says `past_step(S)` returns a boolean for every sub-step
`S` of the spec's ten-step enumeration (in particular `S = tests_passed`),
and for issues whose cursor is `tests_passed`.  The code's `SUB_STEPS`
(state.py lines 19-29) omits `"tests_passed"`, so `list.index` raises
`ValueError` there: `past_step("tests_passed")` fails on every issue, and
every query fails once the cursor is `"tests_passed"` — even though
`issue_processor.py` itself calls `past_step("tests_passed")` (line 362)
and assigns `sub_step = "tests_passed"` (line 460).  This theorem
evaluates the code at the failing inputs. -/
theorem c1_past_step_tests_passed_raises :
    "tests_passed" ∈ specSubSteps ∧
    "tests_passed" ∉ SUB_STEPS ∧
    pastStep sampleIssue "tests_passed" = none ∧
    pastStep testsPassedIssue "pr_merged" = none ∧
    (∀ s ∈ SUB_STEPS, pastStep sampleIssue s =
      some (decide ((listIndex SUB_STEPS s).getD 0 ≤ 6))) := by
  refine ⟨by decide, by decide, by decide, by decide, ?_⟩
  decide

/-! ## issue_processor.py — per-issue step sequencer (`_process_single_issue`) -/

/-- The guard names of `_process_single_issue` (`issue_processor.py`
lines 233, 244, 262, 292, 311, 342, 362, 464, 486), in the order the
code tests them.  Each block runs iff `not issue_state.past_step(name)`
and ends with `issue_state.sub_step = name`. -/
def lifecycleGuards : List String :=
  [ "issue_created",
    "branch_created",
    "code_generated",
    "committed",
    "pr_created",
    "pr_reviewed",
    "tests_passed",
    "pr_merged",
    "issue_closed" ]

/-- One walk of the guarded blocks of `_process_single_issue`: returns the
list of lifecycle steps whose external effects execute, and `some "ValueError"`
when a `past_step` lookup raises (aborting the walk, as the exception
propagates out of the function). -/
def runGuards : List String → IssueState → List String × Option String
  | [], _ => ([], none)
  | g :: rest, s =>
    match pastStep s g with
    | none => ([], some "ValueError")
    | some true => runGuards rest s
    | some false =>
        let r := runGuards rest { s with sub_step := g }
        (g :: r.1, r.2)

/-- The function `_process_single_issue` (`issue_processor.py` lines 221-494) restricted
to its step-sequencing skeleton: which lifecycle steps run, from a saved
cursor. -/
def processSingleIssue (iss : IssueState) : List String × Option String :=
  runGuards lifecycleGuards iss

/-- The driver-side skip of `process_all_issues` (`issue_processor.py`
lines 197-199): an issue whose cursor is `"issue_closed"` is skipped
before `_process_single_issue` is ever called. -/
def driverProcessIssue (iss : IssueState) : List String × Option String :=
  if iss.sub_step == "issue_closed" then ([], none)
  else processSingleIssue iss

/-- C2: the claim says re-running the sequencer performs exactly the steps
strictly after the saved cursor (and zero steps at `issue_closed`).  In the
code, the guard `past_step("tests_passed")` (`issue_processor.py` line 362)
raises `ValueError` for every issue, because `"tests_passed"` is missing
from `SUB_STEPS`: an issue resumed at `pr_reviewed` performs zero further
steps and aborts, instead of performing `tests_passed, pr_merged,
issue_closed`; a fresh issue performs the first six steps and then aborts.
Only the `issue_closed` part of the claim holds.  This theorem evaluates
the code at such inputs. -/
theorem c2_resume_aborts_at_tests_passed_guard :
    driverProcessIssue sampleIssue = ([], some "ValueError") ∧
    driverProcessIssue { sampleIssue with sub_step := "not_started" } =
      (["issue_created", "branch_created", "code_generated", "committed",
        "pr_created", "pr_reviewed"], some "ValueError") ∧
    driverProcessIssue { sampleIssue with sub_step := "issue_closed" } = ([], none) ∧
    ((SUB_STEPS.filter (· != "issue_closed")).all
      (fun c => (driverProcessIssue { sampleIssue with sub_step := c }).2
        == some "ValueError")) = true := by
  refine ⟨by decide, by decide, by decide, by decide⟩

/-! ## state.py — persisted document model (`AgentState`, `save`, `load`)

JSON documents are modelled by the `Json` AST; `json.load` of the file text
is the `Option Json` input of `load` (`none` = text that is not JSON). -/

/-- JSON value AST (the documents `json.dump`/`json.load` exchange). -/
inductive Json where
  | null
  | bool (b : Bool)
  | int (n : Int)
  | str (s : String)
  | arr (xs : List Json)
  | obj (kvs : List (String × Json))

/-- The dataclass `AgentState` from `state.py` lines 51-71, with the field types the
program itself maintains. -/
structure AgentState where
  project_idea : String := ""
  tech_stack : String := ""
  repo_name : String := ""
  repo_full_name : String := ""
  project_dir : String := ""
  plan_generated : Bool := false
  issues_json_generated : Bool := false
  repo_created : Bool := false
  scaffolding_done : Bool := false
  staging_branch_created : Bool := false
  issues : List IssueState := []
  phases_merged : List Int := []
  deriving Repr, DecidableEq

/-- Result of `dataclasses.asdict` on one `IssueState`, then JSON encoding: the
nine fields in declaration order. -/
def asdictIssue (i : IssueState) : Json :=
  .obj
    [ ("index", .int i.index),
      ("title", .str i.title),
      ("phase", .int i.phase),
      ("priority", .str i.priority),
      ("github_issue_number", (i.github_issue_number.map Json.int).getD .null),
      ("branch_name", (i.branch_name.map Json.str).getD .null),
      ("pr_number", (i.pr_number.map Json.int).getD .null),
      ("status", .str i.status),
      ("sub_step", .str i.sub_step) ]

/-- Result of `dataclasses.asdict` on the whole `AgentState`, then JSON encoding:
the document `save` writes (`state.py` line 82). -/
def asdictState (s : AgentState) : Json :=
  .obj
    [ ("project_idea", .str s.project_idea),
      ("tech_stack", .str s.tech_stack),
      ("repo_name", .str s.repo_name),
      ("repo_full_name", .str s.repo_full_name),
      ("project_dir", .str s.project_dir),
      ("plan_generated", .bool s.plan_generated),
      ("issues_json_generated", .bool s.issues_json_generated),
      ("repo_created", .bool s.repo_created),
      ("scaffolding_done", .bool s.scaffolding_done),
      ("staging_branch_created", .bool s.staging_branch_created),
      ("issues", .arr (s.issues.map asdictIssue)),
      ("phases_merged", .arr (s.phases_merged.map Json.int)) ]

/-- Error kinds `load` can raise.  `corruptStateError` is the distinguished
kind the specification names (§4.1); it is listed so statements about it can
be made — the code never defines or raises it. -/
inductive PyError where
  | jsonDecodeError
  | attributeError
  | typeError
  | corruptStateError
  deriving Repr, DecidableEq

/-- The nine `IssueState` dataclass field names, in declaration order. -/
def issueFieldNames : List String :=
  [ "index", "title", "phase", "priority", "github_issue_number",
    "branch_name", "pr_number", "status", "sub_step" ]

/-- Loaded `IssueState` as Python holds it: a dataclass stores whatever
values the document supplied, with no type checking, so each field is a
raw JSON value. -/
structure IssueStateD where
  index : Json
  title : Json
  phase : Json
  priority : Json
  github_issue_number : Json := .null
  branch_name : Json := .null
  pr_number : Json := .null
  status : Json := .str "pending"
  sub_step : Json := .str "not_started"

/-- Loaded `AgentState` as Python holds it after `load` (`state.py` 93-98):
`cls()` defaults, then `setattr` of raw document values. -/
structure AgentStateD where
  project_idea : Json := .str ""
  tech_stack : Json := .str ""
  repo_name : Json := .str ""
  repo_full_name : Json := .str ""
  project_dir : Json := .str ""
  plan_generated : Json := .bool false
  issues_json_generated : Json := .bool false
  repo_created : Json := .bool false
  scaffolding_done : Json := .bool false
  staging_branch_created : Json := .bool false
  issues : List IssueStateD := []
  phases_merged : Json := .arr []

/-- Last-occurrence key lookup (Python dict semantics after `json.load`,
which keeps the last duplicate). -/
def lookupLast (kvs : List (String × Json)) (k : String) : Option Json :=
  ((kvs.filter (fun kv => kv.1 == k)).getLast?).map (·.2)

/-- The call `IssueState(**iss)` (`state.py` line 96): raises `TypeError` when a key
is not a field name or a required field (no dataclass default) is missing;
values are stored untyped. -/
def issueFromKwargs (kvs : List (String × Json)) : Except PyError IssueStateD :=
  if kvs.all (fun kv => issueFieldNames.contains kv.1) then
    match lookupLast kvs "index", lookupLast kvs "title",
          lookupLast kvs "phase", lookupLast kvs "priority" with
    | some ix, some t, some ph, some pr =>
        .ok { index := ix, title := t, phase := ph, priority := pr,
              github_issue_number := (lookupLast kvs "github_issue_number").getD .null,
              branch_name := (lookupLast kvs "branch_name").getD .null,
              pr_number := (lookupLast kvs "pr_number").getD .null,
              status := (lookupLast kvs "status").getD (.str "pending"),
              sub_step := (lookupLast kvs "sub_step").getD (.str "not_started") }
    | _, _, _, _ => .error .typeError
  else .error .typeError

/-- The element loop of `[IssueState(**iss) for iss in value]`: stops at the
first failing element, as the comprehension raises there. -/
def issueListFromJson : List Json → Except PyError (List IssueStateD)
  | [] => .ok []
  | x :: xs =>
    match x with
    | .obj kvs =>
      match issueFromKwargs kvs, issueListFromJson xs with
      | .ok d, .ok ds => .ok (d :: ds)
      | .error e, _ => .error e
      | .ok _, .error e => .error e
    | _ => .error .typeError

/-- The comprehension `[IssueState(**iss) for iss in value]` (`state.py` line 96): `TypeError`
when the value is not a list of objects (iterating a non-list, or `**` on a
non-mapping element). -/
def issuesFromJson : Json → Except PyError (List IssueStateD)
  | .arr xs => issueListFromJson xs
  | _ => .error .typeError

/-- The call `setattr(state, key, value)` for the non-`"issues"` keys (`state.py`
line 98): a known field is overwritten with the raw value; an unknown key
creates an attribute outside the dataclass fields (no effect on them). -/
def setAttr (s : AgentStateD) (k : String) (v : Json) : AgentStateD :=
  if k == "project_idea" then { s with project_idea := v }
  else if k == "tech_stack" then { s with tech_stack := v }
  else if k == "repo_name" then { s with repo_name := v }
  else if k == "repo_full_name" then { s with repo_full_name := v }
  else if k == "project_dir" then { s with project_dir := v }
  else if k == "plan_generated" then { s with plan_generated := v }
  else if k == "issues_json_generated" then { s with issues_json_generated := v }
  else if k == "repo_created" then { s with repo_created := v }
  else if k == "scaffolding_done" then { s with scaffolding_done := v }
  else if k == "staging_branch_created" then { s with staging_branch_created := v }
  else if k == "phases_merged" then { s with phases_merged := v }
  else s

/-- The `for key, value in data.items()` loop of `load` (`state.py` 94-98). -/
def loadFields : List (String × Json) → AgentStateD → Except PyError AgentStateD
  | [], s => .ok s
  | (k, v) :: rest, s =>
    if k == "issues" then
      match issuesFromJson v with
      | .ok is => loadFields rest { s with issues := is }
      | .error e => .error e
    else loadFields rest (setAttr s k v)

/-- The classmethod `AgentState.load` (`state.py` 89-99).  The `Option Json` input is the
result of `json.load` on the file text: `none` means the text is not JSON
(`json.JSONDecodeError`); a non-object document fails at `data.items()`
(`AttributeError`). -/
def load (doc : Option Json) : Except PyError AgentStateD :=
  match doc with
  | none => .error .jsonDecodeError
  | some (.obj kvs) => loadFields kvs {}
  | some _ => .error .attributeError

/-- Value-preserving injection of a typed in-memory state into the untyped
loaded representation: the state `load` yields when every document value
has the type the program wrote. -/
def toDynIssue (i : IssueState) : IssueStateD :=
  { index := .int i.index, title := .str i.title, phase := .int i.phase,
    priority := .str i.priority,
    github_issue_number := (i.github_issue_number.map Json.int).getD .null,
    branch_name := (i.branch_name.map Json.str).getD .null,
    pr_number := (i.pr_number.map Json.int).getD .null,
    status := .str i.status, sub_step := .str i.sub_step }

/-- Value-preserving injection of the whole typed state (see `toDynIssue`). -/
def toDynState (s : AgentState) : AgentStateD :=
  { project_idea := .str s.project_idea, tech_stack := .str s.tech_stack,
    repo_name := .str s.repo_name, repo_full_name := .str s.repo_full_name,
    project_dir := .str s.project_dir,
    plan_generated := .bool s.plan_generated,
    issues_json_generated := .bool s.issues_json_generated,
    repo_created := .bool s.repo_created,
    scaffolding_done := .bool s.scaffolding_done,
    staging_branch_created := .bool s.staging_branch_created,
    issues := s.issues.map toDynIssue,
    phases_merged := .arr (s.phases_merged.map Json.int) }

/-- Typed readback of one loaded issue: succeeds exactly when every stored
value has the declared field type. -/
def fromDynIssue (d : IssueStateD) : Option IssueState :=
  match d.index, d.title, d.phase, d.priority, d.github_issue_number,
        d.branch_name, d.pr_number, d.status, d.sub_step with
  | .int ix, .str t, .int ph, .str pr, gin, bn, pn, .str st, .str ss =>
    match gin, bn, pn with
    | .null, .null, .null =>
        some { index := ix, title := t, phase := ph, priority := pr,
               github_issue_number := none, branch_name := none,
               pr_number := none, status := st, sub_step := ss }
    | .null, .null, .int p =>
        some { index := ix, title := t, phase := ph, priority := pr,
               github_issue_number := none, branch_name := none,
               pr_number := some p, status := st, sub_step := ss }
    | .null, .str b, .null =>
        some { index := ix, title := t, phase := ph, priority := pr,
               github_issue_number := none, branch_name := some b,
               pr_number := none, status := st, sub_step := ss }
    | .null, .str b, .int p =>
        some { index := ix, title := t, phase := ph, priority := pr,
               github_issue_number := none, branch_name := some b,
               pr_number := some p, status := st, sub_step := ss }
    | .int g, .null, .null =>
        some { index := ix, title := t, phase := ph, priority := pr,
               github_issue_number := some g, branch_name := none,
               pr_number := none, status := st, sub_step := ss }
    | .int g, .null, .int p =>
        some { index := ix, title := t, phase := ph, priority := pr,
               github_issue_number := some g, branch_name := none,
               pr_number := some p, status := st, sub_step := ss }
    | .int g, .str b, .null =>
        some { index := ix, title := t, phase := ph, priority := pr,
               github_issue_number := some g, branch_name := some b,
               pr_number := none, status := st, sub_step := ss }
    | .int g, .str b, .int p =>
        some { index := ix, title := t, phase := ph, priority := pr,
               github_issue_number := some g, branch_name := some b,
               pr_number := some p, status := st, sub_step := ss }
    | _, _, _ => none
  | _, _, _, _, _, _, _, _, _ => none

/-- Typed readback of a loaded integer list. -/
def fromJsonIntList : Json → Option (List Int)
  | .arr xs => xs.mapM (fun x => match x with | .int n => some n | _ => none)
  | _ => none

/-- Typed readback of the whole loaded state (see `fromDynIssue`). -/
def fromDynState (d : AgentStateD) : Option AgentState :=
  match d.project_idea, d.tech_stack, d.repo_name, d.repo_full_name,
        d.project_dir, d.plan_generated, d.issues_json_generated,
        d.repo_created, d.scaffolding_done, d.staging_branch_created with
  | .str a, .str b, .str c, .str e, .str f, .bool g, .bool h, .bool i,
    .bool j, .bool k =>
    match d.issues.mapM fromDynIssue, fromJsonIntList d.phases_merged with
    | some is, some ph =>
        some { project_idea := a, tech_stack := b, repo_name := c,
               repo_full_name := e, project_dir := f, plan_generated := g,
               issues_json_generated := h, repo_created := i,
               scaffolding_done := j, staging_branch_created := k,
               issues := is, phases_merged := ph }
    | _, _ => none
  | _, _, _, _, _, _, _, _, _, _ => none

/-! ### Round-trip and error-kind lemmas for the state store -/

theorem issueFromKwargs_asdict (i : IssueState) :
    issueFromKwargs
      [ ("index", .int i.index),
        ("title", .str i.title),
        ("phase", .int i.phase),
        ("priority", .str i.priority),
        ("github_issue_number", (i.github_issue_number.map Json.int).getD .null),
        ("branch_name", (i.branch_name.map Json.str).getD .null),
        ("pr_number", (i.pr_number.map Json.int).getD .null),
        ("status", .str i.status),
        ("sub_step", .str i.sub_step) ] = .ok (toDynIssue i) := rfl

theorem issueListFromJson_asdict (l : List IssueState) :
    issueListFromJson (l.map asdictIssue) = .ok (l.map toDynIssue) := by
  induction l with
  | nil => rfl
  | cons i t ih =>
      simp only [List.map_cons, issueListFromJson, asdictIssue,
        issueFromKwargs_asdict, ih]

theorem fromDynIssue_toDynIssue (i : IssueState) :
    fromDynIssue (toDynIssue i) = some i := by
  rcases i with ⟨ix, t, ph, pr, gin, bn, pn, st, ss⟩
  cases gin <;> cases bn <;> cases pn <;> rfl

theorem mapM_fromDynIssue (l : List IssueState) :
    (l.map toDynIssue).mapM fromDynIssue = some l := by
  induction l with
  | nil => rfl
  | cons i t ih =>
      simp only [List.map_cons, List.mapM_cons, fromDynIssue_toDynIssue, ih]
      rfl

theorem fromJsonIntList_map (l : List Int) :
    fromJsonIntList (.arr (l.map Json.int)) = some l := by
  simp only [fromJsonIntList]
  induction l with
  | nil => rfl
  | cons n t ih =>
      simp only [List.map_cons, List.mapM_cons, ih]
      rfl

/-- C10: saving any run state and loading it back yields a state equal to
the original.  `save` writes `asdict(state)` as JSON (`state.py` line 82);
`load` rebuilds the state from that document.  The first conjunct says
`load` succeeds and every stored field carries exactly the original value
(via the value-preserving injection `toDynState`); the second says the
typed readback of that loaded state is exactly the original, so nothing
was lost or altered: identity fields, phase-gate booleans, merged phases,
and all nine per-issue fields round-trip. -/
theorem c10_save_load_round_trip (s : AgentState) :
    load (some (asdictState s)) = .ok (toDynState s) ∧
    fromDynState (toDynState s) = some s := by
  constructor
  · simp [load, asdictState, loadFields, setAttr, issuesFromJson,
      issueListFromJson_asdict s.issues, toDynState]
  · simp only [fromDynState, toDynState, mapM_fromDynIssue, fromJsonIntList_map]

theorem issueFromKwargs_not_corrupt (kvs : List (String × Json)) :
    issueFromKwargs kvs ≠ .error .corruptStateError := by
  unfold issueFromKwargs
  split
  · split <;> simp
  · simp

theorem issueListFromJson_not_corrupt (xs : List Json) :
    issueListFromJson xs ≠ .error .corruptStateError := by
  induction xs with
  | nil => simp [issueListFromJson]
  | cons x t ih =>
      unfold issueListFromJson
      split
      · rename_i kvs
        split
        · simp
        · rename_i e heq
          intro h
          injection h with h2
          subst h2
          exact issueFromKwargs_not_corrupt kvs heq
        · rename_i e heq
          intro h
          injection h with h2
          subst h2
          exact ih heq
      · simp

theorem issuesFromJson_not_corrupt (v : Json) :
    issuesFromJson v ≠ .error .corruptStateError := by
  cases v
  case arr xs => exact issueListFromJson_not_corrupt xs
  all_goals simp [issuesFromJson]

theorem loadFields_not_corrupt (kvs : List (String × Json)) :
    ∀ acc, loadFields kvs acc ≠ .error .corruptStateError := by
  induction kvs with
  | nil => intro acc; simp [loadFields]
  | cons kv t ih =>
      intro acc
      obtain ⟨k, v⟩ := kv
      unfold loadFields
      split
      · split
        · exact ih _
        · rename_i e heq
          intro h
          injection h with h2
          subst h2
          exact issuesFromJson_not_corrupt v heq
      · exact ih _

/-- C8 counterexample: the claim says `load` fails with the distinguished
`CorruptStateError` whenever the document does not have the expected
shape.  On a JSON array document (not an object), `data.items()` raises
`AttributeError` — a different kind; no `CorruptStateError` exists in the
code at all. -/
theorem c8_counterexample_load_array :
    load (some (.arr [])) = .error .attributeError ∧
    Except.error (α := AgentStateD) PyError.attributeError ≠
      .error .corruptStateError := by
  exact ⟨rfl, by simp⟩

/-- C8 amended: `load` never raises a distinguished `CorruptStateError`
(the code defines no such kind).  Instead: text that is not JSON raises
`JSONDecodeError`; a document that is not a JSON object raises
`AttributeError`; an `issues` value that is not a list of objects, or an
issue record whose keys do not match the `IssueState` dataclass fields,
raises `TypeError`; and a document whose field values merely have wrong
types is accepted without any error. -/
theorem c8_load_error_kinds :
    (∀ doc, load doc ≠ .error .corruptStateError) ∧
    load none = .error .jsonDecodeError ∧
    load (some (.arr [])) = .error .attributeError ∧
    load (some (.obj [("issues", .int 3)])) = .error .typeError ∧
    load (some (.obj [("issues", .arr [.obj [("bogus", .null)]])]))
      = .error .typeError ∧
    load (some (.obj [("project_idea", .int 5)]))
      = .ok { project_idea := Json.int 5 } := by
  refine ⟨?_, rfl, rfl, rfl, rfl, rfl⟩
  intro doc
  match doc with
  | none => simp [load]
  | some (.obj kvs) => exact loadFields_not_corrupt kvs _
  | some .null | some (.bool _) | some (.int _) | some (.str _)
  | some (.arr _) => simp [load]

/-! ## state.py — `AgentState.save` write/rename protocol (lines 75-87)

`save` serializes the whole state, writes it to a `mkstemp` temporary in
the target's directory, and `os.replace`s it over the target; on an
exception the temporary is unlinked and the exception re-raised.  The two
files it touches are modelled below; `content` is the full serialized
document text (for the program, a rendering of `asdictState`). -/

/-- The target path and the same-directory temporary; `none` = absent. -/
structure FS where
  target : Option String
  tmp : Option String
  deriving Repr, DecidableEq

/-- Control point inside `save`: before `mkstemp`, after it, during
`json.dump`, after it, after `os.replace`, or in the `except` path. -/
inductive SavePhase where
  | start
  | tmpCreated
  | writing
  | written
  | renamed
  | failed
  deriving Repr, DecidableEq

/-- Small-step execution of `save` over the file system.  `writing` states
expose every partial prefix a crash mid-`json.dump` could leave in the
temporary; `writeFail`/`replaceFail` are the `except` path (`state.py`
84-87: unlink the temporary, re-raise); `replaceOk` is the atomic
`os.replace` (line 83), the only step that touches the target. -/
inductive SaveStep (content : String) : SavePhase × FS → SavePhase × FS → Prop
  | mkstemp (fs : FS) :
      SaveStep content (.start, fs) (.tmpCreated, { fs with tmp := some "" })
  | writeChunk (fs : FS) (p : String) (h : p.isPrefixOf content) :
      SaveStep content (.tmpCreated, fs) (.writing, { fs with tmp := some p })
  | writeMore (fs : FS) (p : String) (h : p.isPrefixOf content) :
      SaveStep content (.writing, fs) (.writing, { fs with tmp := some p })
  | writeDone (fs : FS) :
      SaveStep content (.writing, fs) (.written, { fs with tmp := some content })
  | writeDoneDirect (fs : FS) :
      SaveStep content (.tmpCreated, fs) (.written, { fs with tmp := some content })
  | writeFail (fs : FS) :
      SaveStep content (.tmpCreated, fs) (.failed, { fs with tmp := none })
  | writeFailMid (fs : FS) :
      SaveStep content (.writing, fs) (.failed, { fs with tmp := none })
  | replaceOk (fs : FS) :
      SaveStep content (.written, fs) (.renamed, { target := some content, tmp := none })
  | replaceFail (fs : FS) :
      SaveStep content (.written, fs) (.failed, { fs with tmp := none })

/-- C3: `save` is atomic.  In every state reachable during a run of `save`
— including every crash point mid-write and the exception path — the
target path holds either the previous complete content or the new complete
serialized document, never a mixture; after the rename the target holds
the new document and the temporary is gone; and on the error path the
target is unchanged and the temporary has been removed (the error is
re-raised, which is the `failed` phase). -/
theorem c3_save_atomic (old : Option String) (content : String)
    (ph : SavePhase) (fs : FS)
    (h : Relation.ReflTransGen (SaveStep content)
      (.start, ⟨old, none⟩) (ph, fs)) :
    (fs.target = old ∨ fs.target = some content) ∧
    (ph = .renamed → fs.target = some content ∧ fs.tmp = none) ∧
    (ph = .failed → fs.target = old ∧ fs.tmp = none) := by
  have key : ∀ q : SavePhase × FS,
      Relation.ReflTransGen (SaveStep content) (.start, ⟨old, none⟩) q →
      (q.1 ≠ .renamed → q.2.target = old) ∧
      (q.1 = .renamed → q.2.target = some content ∧ q.2.tmp = none) ∧
      (q.1 = .failed → q.2.tmp = none) := by
    intro q hq
    induction hq with
    | refl =>
        refine ⟨fun _ => rfl, fun hc => ?_, fun hc => ?_⟩ <;> cases hc
    | tail _ hstep ih =>
        obtain ⟨ih1, ih2, ih3⟩ := ih
        cases hstep with
        | mkstemp fs =>
            refine ⟨fun _ => ih1 (by simp), fun hc => ?_, fun hc => ?_⟩ <;> cases hc
        | writeChunk fs p hp =>
            refine ⟨fun _ => ih1 (by simp), fun hc => ?_, fun hc => ?_⟩ <;> cases hc
        | writeMore fs p hp =>
            refine ⟨fun _ => ih1 (by simp), fun hc => ?_, fun hc => ?_⟩ <;> cases hc
        | writeDone fs =>
            refine ⟨fun _ => ih1 (by simp), fun hc => ?_, fun hc => ?_⟩ <;> cases hc
        | writeDoneDirect fs =>
            refine ⟨fun _ => ih1 (by simp), fun hc => ?_, fun hc => ?_⟩ <;> cases hc
        | writeFail fs =>
            refine ⟨fun _ => ih1 (by simp), fun hc => ?_, fun _ => rfl⟩
            cases hc
        | writeFailMid fs =>
            refine ⟨fun _ => ih1 (by simp), fun hc => ?_, fun _ => rfl⟩
            cases hc
        | replaceOk fs =>
            refine ⟨fun hc => absurd rfl hc, fun _ => ⟨rfl, rfl⟩, fun hc => ?_⟩
            cases hc
        | replaceFail fs =>
            refine ⟨fun _ => ih1 (by simp), fun hc => ?_, fun _ => rfl⟩
            cases hc
  obtain ⟨k1, k2, k3⟩ := key (ph, fs) h
  refine ⟨?_, k2, fun hf => ⟨?_, k3 hf⟩⟩
  · by_cases hr : ph = .renamed
    · exact Or.inr (k2 hr).1
    · exact Or.inl (k1 hr)
  · exact k1 (by simp [hf])

/-- Witness for `c3_save_atomic`: a complete successful run
(`mkstemp`, full write, atomic replace) from a target holding `"old"`
with new serialized content `"new"`, instantiating the theorem there. -/
theorem c3_save_atomic_witness :
    ((some "new" : Option String) = some "old" ∨
      (some "new" : Option String) = some "new") ∧
    (SavePhase.renamed = .renamed →
      (some "new" : Option String) = some "new" ∧
      (none : Option String) = none) ∧
    (SavePhase.renamed = .failed →
      (some "new" : Option String) = some "old" ∧
      (none : Option String) = none) := by
  have chain : Relation.ReflTransGen (SaveStep "new")
      (.start, ⟨some "old", none⟩) (.renamed, ⟨some "new", none⟩) := by
    have s1 : SaveStep "new" (.start, ⟨some "old", none⟩)
        (.tmpCreated, ⟨some "old", some ""⟩) := SaveStep.mkstemp _
    have s2 : SaveStep "new" (.tmpCreated, ⟨some "old", some ""⟩)
        (.written, ⟨some "old", some "new"⟩) := SaveStep.writeDoneDirect _
    have s3 : SaveStep "new" (.written, ⟨some "old", some "new"⟩)
        (.renamed, ⟨some "new", none⟩) := SaveStep.replaceOk _
    exact Relation.ReflTransGen.tail
      (Relation.ReflTransGen.tail (Relation.ReflTransGen.tail
        Relation.ReflTransGen.refl s1) s2) s3
  exact c3_save_atomic (some "old") "new" .renamed ⟨some "new", none⟩ chain

/-! ## Python text primitives, at the character level

Strings are handled as `List Char` so every operation is structural and
evaluates inside proofs.  Each helper models one Python primitive. -/

/-- The ASCII whitespace `str.strip()` removes. -/
def isPySpace (c : Char) : Bool :=
  c == ' ' || c == '\t' || c == '\n' || c == '\r' || c == '\x0b' || c == '\x0c'

/-- Drop leading whitespace. -/
def dropLeadingSpace : List Char → List Char
  | [] => []
  | c :: cs => if isPySpace c then dropLeadingSpace cs else c :: cs

/-- Python `s.strip()`. -/
def pyStrip (s : List Char) : List Char :=
  (dropLeadingSpace ((dropLeadingSpace s).reverse)).reverse

/-- Python `s.startswith(pat)`. -/
def isPrefixList : List Char → List Char → Bool
  | [], _ => true
  | _ :: _, [] => false
  | p :: ps, c :: cs => p == c && isPrefixList ps cs

/-- Python `pat in s`. -/
def containsSub (pat : List Char) : List Char → Bool
  | [] => pat.isEmpty
  | c :: cs => isPrefixList pat (c :: cs) || containsSub pat cs

/-- Python `s.split(sep)` for a one-character separator. -/
def splitOnChar (sep : Char) : List Char → List (List Char)
  | [] => [[]]
  | c :: cs =>
    let r := splitOnChar sep cs
    if c == sep then [] :: r
    else
      match r with
      | chunk :: rest => (c :: chunk) :: rest
      | [] => [[c]]

/-- Python `"\n".join(lines)`. -/
def joinLines : List (List Char) → List Char
  | [] => []
  | [l] => l
  | l :: rest => l ++ '\n' :: joinLines rest

/-! ## conflict_resolver.py — single-file resolution (`_resolve_single_file`) -/

/-- Python `pat in s` on `String`s. -/
def strContains (s pat : String) : Bool :=
  containsSub pat.data s.data

/-- The helper `_strip_code_fences` (`conflict_resolver.py` 68-75): strip the text,
split on newlines, drop a first line opening a markdown fence and a last
line that is exactly a closing fence, and re-join. -/
def stripCodeFences (text : String) : String :=
  let lines0 := splitOnChar '\n' (pyStrip text.data)
  let lines1 :=
    match lines0 with
    | l :: rest => if isPrefixList "```".data l then rest else lines0
    | [] => lines0
  let lines2 :=
    match lines1.getLast? with
    | some l => if pyStrip l == "```".data then lines1.dropLast else lines1
    | none => lines1
  String.mk (joinLines lines2)

/-- The marker check at `conflict_resolver.py` line 55.  Note the middle
literal in the source is `"======="` — seven equals signs. -/
def hasConflictMarkers (s : String) : Bool :=
  strContains s "<<<<<<" || strContains s "=======" || strContains s ">>>>>>"

/-- The function `_resolve_single_file` (`conflict_resolver.py` 42-65).  Here `gen n` is the
text returned by the n-th `claude_generate` call of this invocation.
Result: the content written back to the file, and how many generation
calls were made (1 = no corrective request, 2 = one corrective request). -/
def resolveSingleFile (gen : Nat → String) : String × Nat :=
  let resolved := stripCodeFences (gen 0)
  if hasConflictMarkers resolved then (stripCodeFences (gen 1), 2)
  else (resolved, 1)

/-- A first response that contains the claim's marker token `======`
(six equals signs) but not the code's `=======` (seven). -/
def sixEqualsGen : Nat → String := fun _ => "a======b"

/-- C5 counterexample: the claim says a first response containing any of
`<<<<<<`, `======`, `>>>>>>` triggers exactly one corrective request.
The code's check (`conflict_resolver.py` line 55) tests `"======="`
(seven equals), so a response containing exactly six equals signs
triggers no corrective request at all: one generation call is made and
the marker-bearing text is written back. -/
theorem c5_counterexample_six_equals :
    strContains (stripCodeFences (sixEqualsGen 0)) "======" = true ∧
    resolveSingleFile sixEqualsGen = ("a======b", 1) := by
  exact ⟨by decide, by decide⟩

/-- C5 amended: the retry trigger is the code's marker set `<<<<<<`,
`=======` (seven equals signs), `>>>>>>`.  If the fence-stripped first
response contains one of those, exactly one corrective request is issued
and the fence-stripped second response is written back unconditionally
(even when it still contains markers, as the second conjunct's concrete
run shows); otherwise zero corrective requests are issued and the first
response is written back. -/
theorem c5_one_corrective_call :
    (∀ gen : Nat → String,
      resolveSingleFile gen =
        if hasConflictMarkers (stripCodeFences (gen 0)) then
          (stripCodeFences (gen 1), 2)
        else (stripCodeFences (gen 0), 1)) ∧
    resolveSingleFile (fun _ => "x<<<<<<y") = ("x<<<<<<y", 2) ∧
    resolveSingleFile (fun _ => "clean merged file") = ("clean merged file", 1) := by
  exact ⟨fun gen => rfl, by decide, by decide⟩

/-! ## issue_processor.py — PR-body checkbox rewriting
(`_update_pr_body_with_results`, lines 127-169) -/

/-- Strip a literal pattern from the front, returning the remainder. -/
def stripPrefixList : List Char → List Char → Option (List Char)
  | [], s => some s
  | _ :: _, [] => none
  | p :: ps, c :: cs => if p == c then stripPrefixList ps cs else none

/-- The regex fragment `.*?\]\*\*$`: arbitrary non-newline characters,
then `]**` closing the whole string. -/
def midThenClose : List Char → Bool
  | [']', '*', '*'] => true
  | c :: cs => c != '\n' && midThenClose cs
  | [] => false

/-- Whether an entire suffix matches
`\s*\*\*\[(FAILED|SKIPPED):.*?\]\*\*$` (the annotation-stripping pattern
at `issue_processor.py` line 149). -/
def matchAnnotationAt (s : List Char) : Bool :=
  let r := s.dropWhile (fun c => isPySpace c)
  match stripPrefixList "**[FAILED:".data r with
  | some rest => midThenClose rest
  | none =>
    match stripPrefixList "**[SKIPPED:".data r with
    | some rest => midThenClose rest
    | none => false

/-- Effect of `re.sub` of that pattern with `""`: remove the leftmost (hence, being
end-anchored, some suffix) match. -/
def subResultTag : List Char → List Char
  | [] => []
  | c :: cs =>
      if matchAnnotationAt (c :: cs) then []
      else c :: subResultTag cs

/-- The checkbox-line regex `^(-\s*)\[[ x]\]\s*(.+)` applied to a stripped
line (`issue_processor.py` line 144): returns (group 1, group 2). -/
def matchCheckbox (stripped : List Char) : Option (List Char × List Char) :=
  match stripped with
  | '-' :: rest =>
    let ws := rest.takeWhile isPySpace
    match rest.dropWhile isPySpace with
    | '[' :: m :: ']' :: rest2 =>
      if m == ' ' || m == 'x' then
        let rest3 := rest2.dropWhile isPySpace
        if rest3.isEmpty then none
        else some ('-' :: ws, rest3)
      else none
    | _ => none
  | _ => none

/-- One parsed test result (`_parse_test_results` output record). -/
structure TestResult where
  number : Int
  status : String
  description : String
  reason : String
  deriving Repr, DecidableEq

/-- Python dict assignment `m[k] = v`: later entries shadow earlier ones
(lookup takes the last match). -/
def dictGet (m : List (String × TestResult)) (k : String) : Option TestResult :=
  ((m.filter (fun kv => kv.1 == k)).getLast?).map (·.2)

/-- The `status_map` construction (`issue_processor.py` 133-137): results
whose 1-based `number` lands inside the checklist are keyed by the
checklist text at that position. -/
def buildStatusMap (results : List TestResult) (test_items : List String) :
    List (String × TestResult) :=
  results.foldl
    (fun m r =>
      let idx := r.number - 1
      if 0 ≤ idx ∧ idx < (test_items.length : Int) then
        m ++ [(test_items.getD idx.toNat "", r)]
      else m)
    []

/-- The per-line rewrite (`issue_processor.py` 142-167). -/
def updateLine (status_map : List (String × TestResult)) (line : List Char) :
    List Char :=
  let stripped := pyStrip line
  match matchCheckbox stripped with
  | none => line
  | some (pre, grp2) =>
    let item_text := pyStrip grp2
    let clean_text := pyStrip (subResultTag item_text)
    match dictGet status_map (String.mk clean_text) with
    | none => line
    | some r =>
      if r.status == "PASS" then pre ++ "[x] ".data ++ clean_text
      else if r.status == "FAIL" then
        pre ++ "[ ] ".data ++ clean_text ++ " **[FAILED: ".data
          ++ r.reason.data ++ "]**".data
      else if r.status == "SKIP" then
        pre ++ "[ ] ".data ++ clean_text ++ " **[SKIPPED: ".data
          ++ r.reason.data ++ "]**".data
      else line

/-- The function `_update_pr_body_with_results` (`issue_processor.py` 127-169). -/
def updatePrBodyWithResults (pr_body : String) (test_items : List String)
    (results : List TestResult) : String :=
  let status_map := buildStatusMap results test_items
  let lines := splitOnChar '\n' pr_body.data
  String.mk (joinLines (lines.map (updateLine status_map)))

/-- C6: with checklist `["renders header", "handles empty input"]` and
parsed results `1 PASS` (empty reason) and `2 FAIL` with reason
`throws on null`, the rewriter checks item 1 with unchanged text and
leaves item 2 unchecked with the literal `**[FAILED: throws on null]**`
appended; the heading, a prose line, and a checklist item with no
matching result all pass through unchanged. -/
theorem c6_test_result_annotations :
    updatePrBodyWithResults
      (String.mk ("# Test Plan\n- [ ] renders header\n- [ ] handles empty input\n- [ ] extra item\nSome prose line").data)
      ["renders header", "handles empty input"]
      [ { number := 1, status := "PASS", description := "renders header",
          reason := "" },
        { number := 2, status := "FAIL", description := "handles empty input",
          reason := "throws on null" } ]
    = String.mk ("# Test Plan\n- [x] renders header\n- [ ] handles empty input **[FAILED: throws on null]**\n- [ ] extra item\nSome prose line").data := by
  decide

/-! ## issue_processor.py — phase merge (`_merge_phase_to_main`, lines
526-593) and its driver guard (`process_all_issues`, lines 216-218) -/

/-- Outcome of one external call: success or a raised exception. -/
inductive CallOutcome where
  | ok
  | err
  deriving Repr, DecidableEq

/-- Outcome of `git_merge`: success, a `MergeConflictError` (routed to the
conflict resolver), or any other exception. -/
inductive MergeOutcome where
  | ok
  | conflict
  | err
  deriving Repr, DecidableEq

/-- Outcomes of the external calls `_merge_phase_to_main` makes, in
program order.  `pullMain`, `pullStaging` and `pushStaging` are wrapped in
`try/except: pass` (lines 567-570, 573-576, 586-589), so their outcome
never alters control flow; `resolveCommit` covers the conflict-resolution
block (lines 581-584). -/
structure MergeEnv where
  diff : CallOutcome
  genBody : CallOutcome
  prCreate : CallOutcome
  prMerge : CallOutcome
  checkoutMain : CallOutcome
  pullMain : CallOutcome
  checkoutStaging : CallOutcome
  pullStaging : CallOutcome
  mergeMain : MergeOutcome
  resolveCommit : CallOutcome
  pushStaging : CallOutcome
  deriving Repr, DecidableEq

/-- The function `_merge_phase_to_main`: the sequence of external effects attempted,
the `phases_merged` list afterwards, and whether the function returned
(rather than raising).  The append of `phase_num` (line 591) is the very
last state change, after every step of the sequence. -/
def mergePhaseToMain (env : MergeEnv) (merged : List Int) (p : Int) :
    List String × List Int × Bool :=
  let t := ["diff"]
  if env.diff = .err then (t, merged, false) else
  let t := t ++ ["gen_pr_body"]
  if env.genBody = .err then (t, merged, false) else
  let t := t ++ ["pr_create"]
  if env.prCreate = .err then (t, merged, false) else
  let t := t ++ ["pr_merge"]
  if env.prMerge = .err then (t, merged, false) else
  let t := t ++ ["checkout_main"]
  if env.checkoutMain = .err then (t, merged, false) else
  let t := t ++ ["pull_main"]
  let t := t ++ ["checkout_staging"]
  if env.checkoutStaging = .err then (t, merged, false) else
  let t := t ++ ["pull_staging"]
  let t := t ++ ["merge_main"]
  if env.mergeMain = .err then (t, merged, false) else
  if env.mergeMain = .conflict then
    let t := t ++ ["resolve_conflicts"]
    if env.resolveCommit = .err then (t, merged, false) else
    let t := t ++ ["push_staging", "record_merged"]
    (t, merged ++ [p], true)
  else
    let t := t ++ ["push_staging", "record_merged"]
    (t, merged ++ [p], true)

/-- The driver-side guard (`process_all_issues` lines 217-218):
`if phase_num not in state.phases_merged: _merge_phase_to_main(...)`. -/
def phaseEndStep (env : MergeEnv) (merged : List Int) (p : Int) :
    List String × List Int × Bool :=
  if p ∈ merged then ([], merged, true)
  else mergePhaseToMain env merged p

/-- C7: (1) for a phase already in the merged-phases record the driver
performs no merge effects at all — the coordinator is never invoked;
(2) when the coordinator returns, the phase was appended and every fatal
step of the sequence (diff, PR body generation, PR creation, PR merge,
both checkouts, the trunk-into-integration merge, and conflict resolution
when that merge conflicts) succeeded; (3) when any fatal step raises, the
merged-phases record is unchanged. -/
theorem c7_phase_merge_idempotent (env : MergeEnv) (merged : List Int) (p : Int) :
    (p ∈ merged → phaseEndStep env merged p = ([], merged, true)) ∧
    ((mergePhaseToMain env merged p).2.2 = true →
      (mergePhaseToMain env merged p).2.1 = merged ++ [p] ∧
      env.diff = .ok ∧ env.genBody = .ok ∧ env.prCreate = .ok ∧
      env.prMerge = .ok ∧ env.checkoutMain = .ok ∧
      env.checkoutStaging = .ok ∧ env.mergeMain ≠ .err ∧
      (env.mergeMain = .conflict → env.resolveCommit = .ok)) ∧
    ((mergePhaseToMain env merged p).2.2 = false →
      (mergePhaseToMain env merged p).2.1 = merged) := by
  obtain ⟨d, g, pc, pm, cm, plm, cs, pls, mm, rc, ps⟩ := env
  refine ⟨fun hp => by simp [phaseEndStep, hp], ?_, ?_⟩ <;>
    cases d <;> cases g <;> cases pc <;> cases pm <;> cases cm <;>
    cases cs <;> cases mm <;> cases rc <;>
    simp [mergePhaseToMain]

/-- An environment in which every external call succeeds cleanly. -/
def allOkEnv : MergeEnv :=
  { diff := .ok, genBody := .ok, prCreate := .ok, prMerge := .ok,
    checkoutMain := .ok, pullMain := .ok, checkoutStaging := .ok,
    pullStaging := .ok, mergeMain := .ok, resolveCommit := .ok,
    pushStaging := .ok }

/-- Witness for `c7_phase_merge_idempotent`: with phase 1 already
recorded the driver does nothing, and a clean coordinator run over an
empty record appends exactly phase 1. -/
theorem c7_phase_merge_idempotent_witness :
    phaseEndStep allOkEnv [1] 1 = ([], [1], true) ∧
    (mergePhaseToMain allOkEnv [] 1).2.1 = ([] : List Int) ++ [1] := by
  refine ⟨(c7_phase_merge_idempotent allOkEnv [1] 1).1 (by simp), ?_⟩
  exact ((c7_phase_merge_idempotent allOkEnv [] 1).2.1 rfl).1

/-! ## planner.py — issue sequencing (`_topological_sort_issues`, lines
114-140) -/

/-- One work item as `_topological_sort_issues` reads it: the keys the
function touches are `"title"`, `"phase"` and `"dependencies"` (absent
dependencies default to `[]` via `.get`); all other keys ride along inside
the dict and never influence the ordering. -/
structure WorkItem where
  title : String
  phase : Int
  deps : List String
  deriving Repr, DecidableEq

/-- One `for iss in list(remaining)` pass (lines 130-135): each item whose
dependency titles are all in `resolved` is placed (appended to the output,
its title added to `resolved`, removed from `remaining`); `resolved` grows
during the pass.  Returns (placed this pass, still remaining, resolved
afterwards). -/
def onePass : List WorkItem → List String →
    List WorkItem × List WorkItem × List String
  | [], resolved => ([], [], resolved)
  | i :: rest, resolved =>
    if i.deps.all (fun d => resolved.contains d) then
      let r := onePass rest (i.title :: resolved)
      (i :: r.1, r.2.1, r.2.2)
    else
      let r := onePass rest resolved
      (r.1, i :: r.2.1, r.2.2)

/-- The `while remaining and iteration < max_iters` loop (lines 128-135):
`fuel` is the number of iterations still allowed.  Returns (all items
placed, in placement order; items never placed; iterations executed). -/
def passLoop : Nat → List WorkItem → List String →
    List WorkItem × List WorkItem × Nat
  | 0, remaining, _ => ([], remaining, 0)
  | fuel + 1, remaining, resolved =>
    match remaining with
    | [] => ([], [], 0)
    | _ =>
      let s := onePass remaining resolved
      let r := passLoop fuel s.2.1 s.2.2
      (s.1 ++ r.1, r.2.1, r.2.2 + 1)

/-- One phase of `_topological_sort_issues` (lines 122-138): run the pass
loop with the code's bound `len(remaining) ** 2 + 1`, then append whatever
is left (line 138). -/
def sortPhase (items : List WorkItem) : List WorkItem :=
  let r := passLoop (items.length ^ 2 + 1) items []
  r.1 ++ r.2.1

/-- Iterations the pass loop of one phase executes. -/
def phasePasses (items : List WorkItem) : Nat :=
  (passLoop (items.length ^ 2 + 1) items []).2.2

/-- The expression `sorted(phases.keys())` (line 121): the distinct phase numbers, in
ascending order. -/
def sortedPhaseKeys (issues : List WorkItem) : List Int :=
  List.insertionSort (· ≤ ·) ((issues.map (·.phase)).dedup)

/-- The function `_topological_sort_issues` (lines 114-140): group by phase
(`sorted(phases.keys())`, ascending), sort each phase's items, and
concatenate. -/
def topologicalSortIssues (issues : List WorkItem) : List WorkItem :=
  (sortedPhaseKeys issues).flatMap
    (fun p => sortPhase (issues.filter (fun i => i.phase == p)))

/-- The condition that every dependency title of `i` names a different item in the phase of `i`
— the claim's (one-level) resolvability condition. -/
def resolvesInPhase (issues : List WorkItem) (i : WorkItem) : Bool :=
  i.deps.all (fun d =>
    issues.any (fun j => j.phase == i.phase && j.title == d && j.title != i.title))

/-- The claim's within-phase ordering property, as stated: every item
whose dependency titles all resolve to other items in the same phase
appears after all of its same-phase dependencies in the output. -/
def claimOrderProp (issues : List WorkItem) : Prop :=
  ∀ a ∈ topologicalSortIssues issues, ∀ b ∈ topologicalSortIssues issues,
    resolvesInPhase issues a = true → b.phase = a.phase → b.title ∈ a.deps →
    (topologicalSortIssues issues).indexOf b
      < (topologicalSortIssues issues).indexOf a

/-- An item whose only dependency `Y` is a real item of the same phase. -/
def cexX : WorkItem := { title := "X", phase := 1, deps := ["Y"] }

/-- An item whose dependency `Z` names no item at all. -/
def cexY : WorkItem := { title := "Y", phase := 1, deps := ["Z"] }

/-- C4 counterexample: `X` depends on `Y` and `Y` depends on a
non-existent `Z`.  Every dependency title of `X` resolves to another item
of the phase (`Y`), yet neither item is ever placed (the pass loop makes
no progress), both are appended in original order, and `X` comes out
before its dependency `Y` — refuting the claim's within-phase ordering
property as stated. -/
theorem c4_counterexample_blocked_dependency :
    topologicalSortIssues [cexX, cexY] = [cexX, cexY] ∧
    resolvesInPhase [cexX, cexY] cexX = true ∧
    ¬ claimOrderProp [cexX, cexY] := by
  refine ⟨by decide, by decide, ?_⟩
  unfold claimOrderProp
  decide

/-! ### Invariants of the pass loop -/

/-- Titles of placed items, accumulated the way `onePass` accumulates
`resolved` (newest first). -/
def extendSeen (seen : List String) (xs : List WorkItem) : List String :=
  xs.foldl (fun s i => i.title :: s) seen

/-- Each item's dependencies are among `seen` or the titles of the items
before it in the list: the ordering guarantee the repeated-pass
resolution actually provides for the items it places. -/
def depsRespectB : List String → List WorkItem → Bool
  | _, [] => true
  | seen, i :: rest =>
      i.deps.all (fun d => seen.contains d) && depsRespectB (i.title :: seen) rest

theorem onePass_perm : ∀ (l : List WorkItem) (res : List String),
    List.Perm ((onePass l res).1 ++ (onePass l res).2.1) l
  | [], res => by simp [onePass]
  | i :: rest, res => by
    by_cases h : (i.deps.all (fun d => res.contains d)) = true
    · simp only [onePass, h, if_true]
      exact (onePass_perm rest (i.title :: res)).cons i
    · simp only [onePass, h, if_false]
      exact List.perm_middle.trans ((onePass_perm rest res).cons i)

theorem onePass_sublist : ∀ (l : List WorkItem) (res : List String),
    List.Sublist ((onePass l res).2.1) l
  | [], res => by simp [onePass]
  | i :: rest, res => by
    by_cases h : (i.deps.all (fun d => res.contains d)) = true
    · simp only [onePass, h, if_true]
      exact (onePass_sublist rest (i.title :: res)).cons i
    · simp only [onePass, h, if_false]
      exact (onePass_sublist rest res).cons₂ i

theorem onePass_resolved : ∀ (l : List WorkItem) (res : List String),
    (onePass l res).2.2 = extendSeen res (onePass l res).1
  | [], res => by simp [onePass, extendSeen]
  | i :: rest, res => by
    by_cases h : (i.deps.all (fun d => res.contains d)) = true
    · simp only [onePass, h, if_true]
      rw [onePass_resolved rest (i.title :: res)]
      simp [extendSeen]
    · simp only [onePass, h, if_false]
      exact onePass_resolved rest res

theorem onePass_deps : ∀ (l : List WorkItem) (res : List String),
    depsRespectB res (onePass l res).1 = true
  | [], res => by simp [onePass, depsRespectB]
  | i :: rest, res => by
    by_cases h : (i.deps.all (fun d => res.contains d)) = true
    · simp only [onePass, h, if_true, depsRespectB, Bool.and_eq_true]
      exact ⟨trivial, onePass_deps rest (i.title :: res)⟩

    · simp only [onePass, h, if_false]
      exact onePass_deps rest res

theorem depsRespectB_append : ∀ (xs : List WorkItem) (seen : List String)
    (ys : List WorkItem),
    depsRespectB seen (xs ++ ys) =
      (depsRespectB seen xs && depsRespectB (extendSeen seen xs) ys)
  | [], seen, ys => by simp [depsRespectB, extendSeen]
  | x :: xs, seen, ys => by
    simp only [List.cons_append, depsRespectB, List.append_eq,
      depsRespectB_append xs (x.title :: seen) ys, Bool.and_assoc, extendSeen,
      List.foldl_cons]

theorem passLoop_perm : ∀ (fuel : Nat) (l : List WorkItem) (res : List String),
    List.Perm ((passLoop fuel l res).1 ++ (passLoop fuel l res).2.1) l
  | 0, l, res => by simp [passLoop]
  | fuel + 1, l, res => by
    cases l with
    | nil => simp [passLoop]
    | cons i rest =>
      simp only [passLoop, List.append_assoc]
      exact (((passLoop_perm fuel _ _).append_left _).trans
        (onePass_perm (i :: rest) res))

theorem passLoop_sublist : ∀ (fuel : Nat) (l : List WorkItem) (res : List String),
    List.Sublist ((passLoop fuel l res).2.1) l
  | 0, l, res => by simp [passLoop]
  | fuel + 1, l, res => by
    cases l with
    | nil => simp [passLoop]
    | cons i rest =>
      simp only [passLoop]
      exact (passLoop_sublist fuel _ _).trans (onePass_sublist (i :: rest) res)

theorem passLoop_deps : ∀ (fuel : Nat) (l : List WorkItem) (res : List String),
    depsRespectB res (passLoop fuel l res).1 = true
  | 0, l, res => by simp [passLoop, depsRespectB]
  | fuel + 1, l, res => by
    cases l with
    | nil => simp [passLoop, depsRespectB]
    | cons i rest =>
      simp only [passLoop, depsRespectB_append, Bool.and_eq_true]
      refine ⟨onePass_deps (i :: rest) res, ?_⟩
      rw [← onePass_resolved (i :: rest) res]
      exact passLoop_deps fuel _ _

theorem passLoop_iters : ∀ (fuel : Nat) (l : List WorkItem) (res : List String),
    (passLoop fuel l res).2.2 ≤ fuel
  | 0, l, res => by simp [passLoop]
  | fuel + 1, l, res => by
    cases l with
    | nil => simp [passLoop]
    | cons i rest =>
      simp only [passLoop]
      exact Nat.succ_le_succ (passLoop_iters fuel _ _)

theorem sortPhase_perm (items : List WorkItem) : List.Perm (sortPhase items) items :=
  passLoop_perm (items.length ^ 2 + 1) items []

/-! ### Phase grouping -/

theorem sortedPhaseKeys_nodup (issues : List WorkItem) :
    (sortedPhaseKeys issues).Nodup :=
  ((List.perm_insertionSort _ _).nodup_iff).mpr (List.nodup_dedup _)

theorem sortedPhaseKeys_sorted (issues : List WorkItem) :
    (sortedPhaseKeys issues).Sorted (· ≤ ·) :=
  List.sorted_insertionSort _ _

theorem mem_sortedPhaseKeys (issues : List WorkItem) (p : Int) :
    p ∈ sortedPhaseKeys issues ↔ p ∈ issues.map (fun i => i.phase) :=
  ((List.perm_insertionSort _ _).mem_iff).trans (List.mem_dedup)

theorem perm_flatMap_filter :
    ∀ (keys : List Int), keys.Nodup →
    ∀ (issues : List WorkItem), (∀ i ∈ issues, i.phase ∈ keys) →
    List.Perm
      (keys.flatMap (fun p => issues.filter (fun i => i.phase == p))) issues := by
  intro keys
  induction keys with
  | nil =>
      intro _ issues hcov
      cases issues with
      | nil => simp
      | cons j t => exact absurd (hcov j (by simp)) (by simp)
  | cons k ks ih =>
      intro hnd issues hcov
      rw [List.flatMap_cons]
      have hpk : ∀ p ∈ ks, p ≠ k := by
        intro p hp he
        exact (List.nodup_cons.mp hnd).1 (he ▸ hp)
      have h1 : ∀ p ∈ ks, issues.filter (fun i => i.phase == p) =
          (issues.filter (fun i => !(i.phase == k))).filter
            (fun i => i.phase == p) := by
        intro p hp
        rw [List.filter_filter]
        refine (List.filter_congr ?_).symm
        intro i _
        by_cases hip : i.phase = p
        · have hipk : (i.phase == k) = false := by
            rw [hip]
            exact beq_eq_false_iff_ne.mpr (hpk p hp)
          simp only [hip, hipk]
          simp
          exact hpk p hp
        · simp [hip]
      rw [List.flatMap_congr h1]
      have hcov' : ∀ i ∈ issues.filter (fun i => !(i.phase == k)), i.phase ∈ ks := by
        intro i hi
        have hmem := List.of_mem_filter hi
        have := hcov i (List.mem_of_mem_filter hi)
        simp only [Bool.not_eq_true', beq_eq_false_iff_ne] at hmem
        rcases List.mem_cons.mp this with h | h
        · exact absurd h hmem
        · exact h
      have hperm := ih (List.nodup_cons.mp hnd).2 _ hcov'
      refine ((hperm.append_left _).trans ?_)
      exact List.filter_append_perm _ issues

theorem grouping_sorted :
    ∀ (keys : List Int), keys.Sorted (· ≤ ·) →
    ∀ (blocks : Int → List WorkItem), (∀ p, ∀ i ∈ blocks p, i.phase = p) →
    ((keys.flatMap blocks).map (fun i => i.phase)).Sorted (· ≤ ·) := by
  intro keys
  induction keys with
  | nil => intro _ blocks _; simp [List.Sorted]
  | cons k ks ih =>
      intro hs blocks hb
      rw [List.flatMap_cons, List.map_append]
      refine List.pairwise_append.mpr ⟨?_, ih hs.of_cons blocks hb, ?_⟩
      · refine List.pairwise_of_forall_mem_list ?_
        intro a ha b hbm
        obtain ⟨i, hi, rfl⟩ := List.mem_map.mp ha
        obtain ⟨j, hj, rfl⟩ := List.mem_map.mp hbm
        rw [hb k i hi, hb k j hj]
      · intro a ha b hbm
        obtain ⟨i, hi, rfl⟩ := List.mem_map.mp ha
        obtain ⟨j, hj, rfl⟩ := List.mem_map.mp hbm
        obtain ⟨p, hp, hjp⟩ := List.mem_flatMap.mp hj
        rw [hb k i hi, hb p j hjp]
        exact List.rel_of_sorted_cons hs p hp

theorem filter_flatMap_blocks (p : Int) :
    ∀ (keys : List Int), keys.Nodup →
    ∀ (blocks : Int → List WorkItem), (∀ q, ∀ i ∈ blocks q, i.phase = q) →
    (keys.flatMap blocks).filter (fun i => i.phase == p) =
      if p ∈ keys then blocks p else [] := by
  intro keys
  induction keys with
  | nil => intro _ blocks _; simp
  | cons k ks ih =>
      intro hnd blocks hb
      rw [List.flatMap_cons, List.filter_append,
        ih (List.nodup_cons.mp hnd).2 blocks hb]
      by_cases hkp : k = p
      · subst hkp
        have h1 : (blocks k).filter (fun i => i.phase == k) = blocks k :=
          List.filter_eq_self.mpr (fun i hi => by simp [hb k i hi])
        have h2 : k ∉ ks := (List.nodup_cons.mp hnd).1
        simp [h1, h2]
      · have h1 : (blocks k).filter (fun i => i.phase == p) = [] :=
          List.filter_eq_nil_iff.mpr (fun i hi => by simp [hb k i hi, hkp])
        by_cases hpks : p ∈ ks
        · have hin : p ∈ k :: ks := List.mem_cons_of_mem k hpks
          simp [h1, hpks, hin]
        · have hnotin : p ∉ k :: ks := by
            intro h
            rcases List.mem_cons.mp h with h | h
            · exact hkp h.symm
            · exact hpks h
          simp [h1, hpks, hnotin]

theorem flatMap_perm_of_perm (keys : List Int) (f g : Int → List WorkItem)
    (h : ∀ p ∈ keys, List.Perm (f p) (g p)) :
    List.Perm (keys.flatMap f) (keys.flatMap g) := by
  induction keys with
  | nil => simp
  | cons k ks ih =>
      rw [List.flatMap_cons, List.flatMap_cons]
      exact (h k (by simp)).append
        (ih (fun p hp => h p (List.mem_cons_of_mem _ hp)))

theorem phase_coverage (issues : List WorkItem) (i : WorkItem) (hi : i ∈ issues) :
    i.phase ∈ sortedPhaseKeys issues :=
  (mem_sortedPhaseKeys issues i.phase).mpr (List.mem_map_of_mem _ hi)

theorem topo_perm (issues : List WorkItem) :
    List.Perm (topologicalSortIssues issues) issues := by
  refine List.Perm.trans ?_ (perm_flatMap_filter (sortedPhaseKeys issues)
    (sortedPhaseKeys_nodup issues) issues (phase_coverage issues))
  exact flatMap_perm_of_perm _ _ _ (fun p _ => sortPhase_perm _)

theorem mem_sortPhase_phase (issues : List WorkItem) (p : Int) (i : WorkItem)
    (hi : i ∈ sortPhase (issues.filter (fun j => j.phase == p))) : i.phase = p := by
  have h1 := (sortPhase_perm (issues.filter (fun j => j.phase == p))).mem_iff.mp hi
  have h2 := List.of_mem_filter h1
  simpa using h2

theorem topo_grouped (issues : List WorkItem) :
    ((topologicalSortIssues issues).map (fun i => i.phase)).Sorted (· ≤ ·) :=
  grouping_sorted _ (sortedPhaseKeys_sorted issues) _
    (fun p i hi => mem_sortPhase_phase issues p i hi)

theorem topo_filter_phase (issues : List WorkItem) (p : Int) :
    (topologicalSortIssues issues).filter (fun i => i.phase == p) =
      sortPhase (issues.filter (fun i => i.phase == p)) := by
  rw [show topologicalSortIssues issues = (sortedPhaseKeys issues).flatMap
    (fun p => sortPhase (issues.filter (fun i => i.phase == p))) from rfl]
  rw [filter_flatMap_blocks p _ (sortedPhaseKeys_nodup issues) _
    (fun q i hi => mem_sortPhase_phase issues q i hi)]
  by_cases hp : p ∈ sortedPhaseKeys issues
  · simp [hp]
  · have hempty : issues.filter (fun i => i.phase == p) = [] := by
      refine List.filter_eq_nil_iff.mpr ?_
      intro i hi hip
      have : i.phase = p := by simpa using hip
      exact hp (this ▸ phase_coverage issues i hi)
    simp [hp, hempty]
    rfl

/-- Items of the claim's linear-chain example (one phase, `A ← B ← C`). -/
def cA : WorkItem := { title := "A", phase := 1, deps := [] }

/-- Second item of the chain example: depends on `A`. -/
def cB : WorkItem := { title := "B", phase := 1, deps := ["A"] }

/-- Third item of the chain example: depends on `B`. -/
def cC : WorkItem := { title := "C", phase := 1, deps := ["B"] }

/-- First item of the claim's two-cycle example. -/
def cycX : WorkItem := { title := "Xc", phase := 1, deps := ["Yc"] }

/-- Second item of the claim's two-cycle example. -/
def cycY : WorkItem := { title := "Yc", phase := 1, deps := ["Xc"] }

/-- C4 (amended): for every input, the sequencer outputs each input item
exactly once (a permutation), grouped by ascending phase number; each
phase's slice of the output is exactly the repeated-pass resolution of
that phase's items, which splits into a placed part — in which every
item's dependencies are titles of items placed before it, the guarantee
the algorithm actually provides — followed by the never-placed items
(cyclic, unresolvable, or blocked behind an unresolvable item) in their
original relative order.  The chain example sorts to `A, B, C` from all
six input orders, and a two-cycle keeps both items exactly once. -/
theorem c4_topological_sort_amended (issues : List WorkItem) :
    List.Perm (topologicalSortIssues issues) issues ∧
    ((topologicalSortIssues issues).map (fun i => i.phase)).Sorted (· ≤ ·) ∧
    (∀ p : Int, (topologicalSortIssues issues).filter (fun i => i.phase == p) =
      sortPhase (issues.filter (fun i => i.phase == p))) ∧
    (∀ p : Int, ∃ P R,
      sortPhase (issues.filter (fun i => i.phase == p)) = P ++ R ∧
      depsRespectB [] P = true ∧
      List.Sublist R (issues.filter (fun i => i.phase == p))) ∧
    (topologicalSortIssues [cA, cB, cC] = [cA, cB, cC] ∧
     topologicalSortIssues [cA, cC, cB] = [cA, cB, cC] ∧
     topologicalSortIssues [cB, cA, cC] = [cA, cB, cC] ∧
     topologicalSortIssues [cB, cC, cA] = [cA, cB, cC] ∧
     topologicalSortIssues [cC, cA, cB] = [cA, cB, cC] ∧
     topologicalSortIssues [cC, cB, cA] = [cA, cB, cC]) ∧
    ((topologicalSortIssues [cycX, cycY]).count cycX = 1 ∧
     (topologicalSortIssues [cycX, cycY]).count cycY = 1) := by
  refine ⟨topo_perm issues, topo_grouped issues, topo_filter_phase issues, ?_,
    ⟨by decide, by decide, by decide, by decide, by decide, by decide⟩,
    by decide, by decide⟩
  intro p
  exact ⟨(passLoop ((issues.filter (fun i => i.phase == p)).length ^ 2 + 1)
      (issues.filter (fun i => i.phase == p)) []).1,
    (passLoop ((issues.filter (fun i => i.phase == p)).length ^ 2 + 1)
      (issues.filter (fun i => i.phase == p)) []).2.1,
    rfl, passLoop_deps _ _ _, passLoop_sublist _ _ _⟩

/-- C9: the repeated-pass resolution of one phase executes at most
`(number of items)² + 1` passes — the code's own `max_iters` bound — and
is total: it always yields a complete output of the same length, even on
inputs it can never resolve.  The two-item cycle runs the full
`2² + 1 = 5` passes and still returns both items. -/
theorem c9_bounded_passes (items : List WorkItem) :
    phasePasses items ≤ items.length ^ 2 + 1 ∧
    (sortPhase items).length = items.length ∧
    phasePasses [cycX, cycY] = 2 ^ 2 + 1 ∧
    sortPhase [cycX, cycY] = [cycX, cycY] := by
  exact ⟨passLoop_iters _ _ _, (sortPhase_perm items).length_eq,
    by decide, by decide⟩

end DevAgent
